import Mathlib

/-!
Shallow embedding of the `Svc::TraceLogger` component
(`src/Svc/TraceLogger/TraceLogger.hpp`): a size-bounded binary trace
recorder.  Only the header is present in the repository, so the bodies of
the handlers and file helpers are modelled from the natural-language
specification (`spec.md`), faithful to its wording; such definitions carry
a doc comment starting `Modelled from the spec:`.  Bytes are `Nat`
(values mod 256 where produced by the encoder), files are `List Nat`,
and machine counters (`U32`) are `Nat` with the budget guard taken
verbatim from the spec.
-/

namespace Svc

/-- Source (`TraceLogger.hpp` lines 22-27): `FILE_NAME_MAX` is `NAME_MAX`
when the platform defines it, otherwise 255; we take the documented upper
value 255. -/
def FILE_NAME_MAX : Nat := 255

/-- Modelled from the spec: `PAYLOAD_MAX` (the source's
`FW_TRACE_BUFFER_MAX_SIZE`, whose value is configured outside this
repository) -- compile-time bound on a trace payload, taken as 256. -/
def PAYLOAD_MAX : Nat := 256

/-- Modelled from the spec: serialized width of the trace identifier
(`FwTraceIdType`, a fixed-width integer; four bytes). -/
def ID_SIZE : Nat := 4

/-- Modelled from the spec: serialized width of the time tag, "seconds +
subsecond fraction, fixed serialized width" -- two four-byte fields. -/
def TIME_SIZE : Nat := 8

/-- Modelled from the spec: serialized width of the fixed-width type tag. -/
def TYPE_SIZE : Nat := 4

/-- Spec §3: `FIXED_HEADER_SIZE = sizeof(id) + sizeof(timestamp) +
sizeof(type discriminant)`. -/
def FIXED_HEADER_SIZE : Nat := ID_SIZE + TIME_SIZE + TYPE_SIZE

/-- Spec §3: `MAX_RECORD_SIZE = PAYLOAD_MAX + FIXED_HEADER_SIZE`. -/
def MAX_RECORD_SIZE : Nat := PAYLOAD_MAX + FIXED_HEADER_SIZE

/-- Source (`TraceLogger.hpp` line 30): `FW_TRACE_MAX_SER_SIZE =
FW_TRACE_BUFFER_MAX_SIZE + sizeof(FwTraceIdType) + Fw::Time::SERIALIZED_SIZE`
(note: the source expression does not add a width for the type tag). -/
def FW_TRACE_MAX_SER_SIZE : Nat := PAYLOAD_MAX + ID_SIZE + TIME_SIZE

/-- The time tag `Fw::Time`: seconds plus a subsecond fraction. -/
structure FwTime where
  seconds : Nat
  useconds : Nat
  deriving DecidableEq, Repr

/-- A trace event as delivered on the `TraceBufferLogger` port:
identifier, time tag, type tag and variable-length payload bytes. -/
structure TraceRecord where
  id : Nat
  timeTag : FwTime
  type : Nat
  payload : List Nat
  deriving DecidableEq, Repr

/-- Big-endian serialization of a four-byte unsigned integer (values are
taken mod 2^32 by the byte extraction itself). -/
def encodeU32 (n : Nat) : List Nat :=
  [n / 2 ^ 24 % 2 ^ 8, n / 2 ^ 16 % 2 ^ 8, n / 2 ^ 8 % 2 ^ 8, n % 2 ^ 8]

/-- Serialization of the time tag: seconds then subseconds. -/
def encodeTime (t : FwTime) : List Nat :=
  encodeU32 t.seconds ++ encodeU32 t.useconds

/-- Modelled from the spec: the `RecordEncoder` contract (§4.1, §6) -- the
record is laid out `[id][timestamp][type][payload]` in a fixed byte order;
the encoder body is not part of the repository sources. -/
def encodeRecord (r : TraceRecord) : List Nat :=
  encodeU32 r.id ++ encodeTime r.timeTag ++ encodeU32 r.type ++ r.payload

/-- The exact length of the encoded record, as the encoder reports it. -/
def serializedSize (r : TraceRecord) : Nat :=
  (encodeRecord r).length

/-- `FileMode` from `TraceLogger.hpp` lines 113-116. -/
inductive FileMode where
  | CLOSED
  | OPEN
  deriving DecidableEq, Repr

/-- The `TraceLogger` member variables (`TraceLogger.hpp` lines 118-127)
together with a model of the one file the component owns: whether it has
ever been created, and its byte contents. -/
structure TraceLoggerState where
  m_mode : FileMode
  m_fileName : String
  m_maxFileSize : Nat
  m_byteCount : Nat
  m_log_init : Bool
  m_enable_trace : Bool
  fileCreated : Bool
  fileContents : List Nat
  deriving DecidableEq, Repr

/-- Modelled from the spec: the writer is "created in CLOSED/disabled
state" with the default budget (constructor body absent from sources). -/
def initState : TraceLoggerState :=
  { m_mode := FileMode.CLOSED
    m_fileName := ""
    m_maxFileSize := 2048
    m_byteCount := 0
    m_log_init := false
    m_enable_trace := false
    fileCreated := false
    fileContents := [] }

/-- Modelled from the spec: `set_log_file` (declared `TraceLogger.hpp`
lines 54-63, body absent).  Per the header doc the name "Must be less than
80 characters"; per spec §4.2/§7 an invalid (empty or over-long) name is
rejected with the prior configuration retained, and a call after the file
is open has no effect on the already-open file. -/
def set_log_file (s : TraceLoggerState) (fileName : String) (maxSize : Nat) :
    TraceLoggerState :=
  if s.m_mode = FileMode.OPEN then s
  else if fileName.length = 0 ∨ 80 ≤ fileName.length then s
  else { s with m_fileName := fileName, m_maxFileSize := maxSize, m_log_init := true }

/-- `set_log_file` invoked without an explicit `maxSize`: the header
declaration gives the default argument value 2048. -/
def set_log_file_default (s : TraceLoggerState) (fileName : String) :
    TraceLoggerState :=
  set_log_file s fileName 2048

/-- Modelled from the spec: `configure` (declared `TraceLogger.hpp`
line 70, body absent) "stores the file name to log traces", with the
default size budget. -/
def configure (s : TraceLoggerState) (file : String) : TraceLoggerState :=
  set_log_file s file 2048

/-- Modelled from the spec: `write_log_file` (declared `TraceLogger.hpp`
lines 138-141, body absent).  An oversized payload is rejected before
serialization (§7); a record whose size would push `written` past
`max_size` is dropped whole (§4.2 step 3); otherwise the encoded bytes are
appended and `m_byteCount` grows by the serialized size (§4.2 step 4). -/
def write_log_file (s : TraceLoggerState) (r : TraceRecord) : TraceLoggerState :=
  if PAYLOAD_MAX < r.payload.length then s
  else if s.m_maxFileSize < s.m_byteCount + serializedSize r then s
  else
    { s with
      fileContents := s.fileContents ++ encodeRecord r
      m_byteCount := s.m_byteCount + serializedSize r }

/-- Modelled from the spec: `openFile` (declared `TraceLogger.hpp`
lines 132-133, body absent) -- the first accepted event "transitions
CLOSED to OPEN (creates/truncates the file)" and resets `written = 0`. -/
def openFile (s : TraceLoggerState) : TraceLoggerState :=
  { s with
    m_mode := FileMode.OPEN
    m_byteCount := 0
    fileCreated := true
    fileContents := [] }

/-- Modelled from the spec: `TraceBufferLogger_handler` (declared
`TraceLogger.hpp` lines 84-89, body absent), the `record` hot path of
§4.2: return immediately when disabled; when CLOSED with no configured
file, drop the event without creating a file; when CLOSED with a
configured file, open (create/truncate) and then write; when OPEN,
write. -/
def TraceBufferLogger_handler (s : TraceLoggerState) (r : TraceRecord) :
    TraceLoggerState :=
  if s.m_enable_trace = false then s
  else
    match s.m_mode with
    | FileMode.CLOSED =>
      if s.m_log_init = false then s
      else write_log_file (openFile s) r
    | FileMode.OPEN => write_log_file s r

/-- Modelled from the spec: the `EnableTrace` command handler (declared
`TraceLogger.hpp` lines 99-101, body absent) toggles the enable flag and
nothing else. -/
def EnableTrace (s : TraceLoggerState) (enable : Bool) : TraceLoggerState :=
  { s with m_enable_trace := enable }

/-- Modelled from the spec: the `DumpTraceDp` command handler (declared
`TraceLogger.hpp` lines 106-108, body absent) -- `dump()` snapshots the
written bytes (start of file up to `written`) without altering any state;
when CLOSED it produces an empty result. -/
def DumpTraceDp (s : TraceLoggerState) : List Nat × TraceLoggerState :=
  match s.m_mode with
  | FileMode.CLOSED => ([], s)
  | FileMode.OPEN => (s.fileContents.take s.m_byteCount, s)

/-- A sequence of `record` calls, folded through the handler. -/
def runRecords (s : TraceLoggerState) (rs : List TraceRecord) : TraceLoggerState :=
  rs.foldl TraceBufferLogger_handler s

/-- The externally reachable operations of the writer. -/
inductive TraceOp where
  | log (r : TraceRecord)
  | setFile (fileName : String) (maxSize : Nat)
  | conf (file : String)
  | enable (flag : Bool)
  | dumpReq
  deriving Repr

/-- One operation applied to the writer state. -/
def applyOp (s : TraceLoggerState) : TraceOp → TraceLoggerState
  | TraceOp.log r => TraceBufferLogger_handler s r
  | TraceOp.setFile f m => set_log_file s f m
  | TraceOp.conf f => configure s f
  | TraceOp.enable b => EnableTrace s b
  | TraceOp.dumpReq => (DumpTraceDp s).2

/-- Serialized sizes of a record sequence, summed. -/
def sumSizes : List TraceRecord → Nat
  | [] => 0
  | r :: rs => serializedSize r + sumSizes rs

/-- Concatenated encodings of a record sequence, in call order. -/
def encodeAll : List TraceRecord → List Nat
  | [] => []
  | r :: rs => encodeRecord r ++ encodeAll rs

/-- The payload lengths of a record sequence (the decode context). -/
def payloadLens (rs : List TraceRecord) : List Nat :=
  rs.map fun r => r.payload.length

/-- Decode a big-endian four-byte unsigned integer from the front of a
byte stream. -/
def decodeU32 : List Nat → Option (Nat × List Nat)
  | b0 :: b1 :: b2 :: b3 :: rest =>
    some (b0 * 2 ^ 24 + b1 * 2 ^ 16 + b2 * 2 ^ 8 + b3, rest)
  | _ => none

/-- Decode one record from the front of a byte stream, its payload length
supplied from context (spec §6: payload length implicit from the record
boundary). -/
def decodeRecord (plen : Nat) (bs : List Nat) : Option (TraceRecord × List Nat) :=
  match decodeU32 bs with
  | none => none
  | some (i, bs1) =>
    match decodeU32 bs1 with
    | none => none
    | some (sec, bs2) =>
      match decodeU32 bs2 with
      | none => none
      | some (usec, bs3) =>
        match decodeU32 bs3 with
        | none => none
        | some (ty, bs4) =>
          if plen ≤ bs4.length then
            some ({ id := i
                    timeTag := { seconds := sec, useconds := usec }
                    type := ty
                    payload := bs4.take plen }, bs4.drop plen)
          else none

/-- Decode a whole file given the per-record payload lengths; fails unless
the stream is consumed exactly. -/
def decodeRecords : List Nat → List Nat → Option (List TraceRecord)
  | [], bs => if bs.isEmpty then some [] else none
  | plen :: plens, bs =>
    match decodeRecord plen bs with
    | none => none
    | some (r, bs1) =>
      match decodeRecords plens bs1 with
      | none => none
      | some rs => some (r :: rs)

/-- A record whose fields fit their serialized widths and whose payload
respects the compile-time bound. -/
abbrev validRecord (r : TraceRecord) : Prop :=
  r.id < 2 ^ 32 ∧ r.timeTag.seconds < 2 ^ 32 ∧ r.timeTag.useconds < 2 ^ 32 ∧
    r.type < 2 ^ 32 ∧ r.payload.length ≤ PAYLOAD_MAX

/-- Greedy budget accounting of spec §4.2 step 3: each size in turn is
added iff it still fits the budget, otherwise skipped. -/
def greedySum (maxSize : Nat) (written : Nat) : List Nat → Nat
  | [] => written
  | n :: ns =>
    if maxSize < written + n then greedySum maxSize written ns
    else greedySum maxSize (written + n) ns

/-- The "largest prefix that fits" reading of the claimed accounting: the
number K of leading sizes whose cumulative sum stays within the budget. -/
def prefixFitCount (maxSize : Nat) : List Nat → Nat
  | [] => 0
  | n :: ns => if n ≤ maxSize then prefixFitCount (maxSize - n) ns + 1 else 0

/-- The sum of the sizes in that largest fitting prefix. -/
def claimPrefixSum (maxSize : Nat) (sizes : List Nat) : Nat :=
  (sizes.take (prefixFitCount maxSize sizes)).sum

/-- A sample record with a three-byte payload, used to instantiate
hypotheses of the general theorems on concrete inputs. -/
def recEx : TraceRecord :=
  { id := 5, timeTag := { seconds := 1, useconds := 2 }, type := 1, payload := [10, 20, 30] }

/-- A sample open, enabled writer state. -/
def openEx : TraceLoggerState :=
  { m_mode := FileMode.OPEN
    m_fileName := "trace.bin"
    m_maxFileSize := 100
    m_byteCount := 0
    m_log_init := true
    m_enable_trace := true
    fileCreated := true
    fileContents := [] }

/-- A fresh writer configured with `trace.bin` and a 100-byte budget,
then enabled. -/
def cfg100 : TraceLoggerState :=
  EnableTrace (set_log_file initState "trace.bin" 100) true

/-- A record of serialized size 60 (44-byte payload plus the 16-byte
header). -/
def rec60 : TraceRecord :=
  { id := 1, timeTag := { seconds := 0, useconds := 0 }, type := 0
    payload := List.replicate 44 7 }

/-- A record of serialized size 30 (14-byte payload). -/
def rec30 : TraceRecord :=
  { id := 2, timeTag := { seconds := 0, useconds := 0 }, type := 0
    payload := List.replicate 14 7 }

/-- A record of serialized size 40 (24-byte payload). -/
def rec40 : TraceRecord :=
  { id := 3, timeTag := { seconds := 0, useconds := 0 }, type := 0
    payload := List.replicate 24 7 }

-- ----------------------------------------------------------------------
-- General lemmas about the encoder and the write path
-- ----------------------------------------------------------------------

/-- `write_log_file` never changes the mode, configuration or enable
flag. -/
theorem write_log_file_frame (s : TraceLoggerState) (r : TraceRecord) :
    (write_log_file s r).m_mode = s.m_mode ∧
      (write_log_file s r).m_maxFileSize = s.m_maxFileSize ∧
      (write_log_file s r).m_enable_trace = s.m_enable_trace ∧
      (write_log_file s r).m_log_init = s.m_log_init := by
  unfold write_log_file
  split
  · exact ⟨rfl, rfl, rfl, rfl⟩
  split
  · exact ⟨rfl, rfl, rfl, rfl⟩
  · exact ⟨rfl, rfl, rfl, rfl⟩

/-- A record that does not fit the remaining budget is dropped whole:
`write_log_file` returns the state untouched. -/
theorem write_log_file_drop (s : TraceLoggerState) (r : TraceRecord)
    (hover : s.m_maxFileSize < s.m_byteCount + serializedSize r) :
    write_log_file s r = s := by
  unfold write_log_file
  by_cases hpay : PAYLOAD_MAX < r.payload.length
  · rw [if_pos hpay]
  · rw [if_neg hpay, if_pos hover]

/-- A record that fits (and respects the payload bound) is appended whole
and accounted exactly. -/
theorem write_log_file_accept (s : TraceLoggerState) (r : TraceRecord)
    (hpay : r.payload.length ≤ PAYLOAD_MAX)
    (hfit : s.m_byteCount + serializedSize r ≤ s.m_maxFileSize) :
    write_log_file s r =
      { s with
        fileContents := s.fileContents ++ encodeRecord r
        m_byteCount := s.m_byteCount + serializedSize r } := by
  unfold write_log_file
  rw [if_neg (by omega), if_neg (by omega)]

/-- On an open, enabled writer the handler is exactly the write path. -/
theorem handler_open_eq (s : TraceLoggerState) (r : TraceRecord)
    (hmode : s.m_mode = FileMode.OPEN) (hen : s.m_enable_trace = true) :
    TraceBufferLogger_handler s r = write_log_file s r := by
  simp [TraceBufferLogger_handler, hen, hmode]

/-- On a closed, configured, enabled writer the handler behaves as if the
file were opened first. -/
theorem handler_closed_eq (s : TraceLoggerState) (r : TraceRecord)
    (hmode : s.m_mode = FileMode.CLOSED) (hinit : s.m_log_init = true)
    (hen : s.m_enable_trace = true) :
    TraceBufferLogger_handler s r = TraceBufferLogger_handler (openFile s) r := by
  simp [TraceBufferLogger_handler, hen, hmode, hinit, openFile]

/-- The inductive invariant of the writer: the byte count never exceeds
the budget, and a CLOSED writer has counted no bytes. -/
def WriterInv (s : TraceLoggerState) : Prop :=
  s.m_byteCount ≤ s.m_maxFileSize ∧
    (s.m_mode = FileMode.CLOSED → s.m_byteCount = 0)

/-- The write path preserves the invariant on an open writer. -/
theorem write_log_file_inv (s : TraceLoggerState) (r : TraceRecord)
    (hmode : s.m_mode = FileMode.OPEN) (h : s.m_byteCount ≤ s.m_maxFileSize) :
    WriterInv (write_log_file s r) := by
  constructor
  · unfold write_log_file
    by_cases hpay : PAYLOAD_MAX < r.payload.length
    · rw [if_pos hpay]; exact h
    · rw [if_neg hpay]
      by_cases hover : s.m_maxFileSize < s.m_byteCount + serializedSize r
      · rw [if_pos hover]; exact h
      · rw [if_neg hover]
        simpa using Nat.le_of_not_lt hover
  · intro hc
    rw [(write_log_file_frame s r).1, hmode] at hc
    cases hc

/-- Every operation of the writer preserves the invariant. -/
theorem applyOp_inv (s : TraceLoggerState) (op : TraceOp) (h : WriterInv s) :
    WriterInv (applyOp s op) := by
  obtain ⟨h1, h2⟩ := h
  cases op with
  | log r =>
    show WriterInv (TraceBufferLogger_handler s r)
    by_cases hen : s.m_enable_trace = false
    · have hstep : TraceBufferLogger_handler s r = s := by
        simp [TraceBufferLogger_handler, hen]
      rw [hstep]; exact ⟨h1, h2⟩
    · cases hmode : s.m_mode with
      | CLOSED =>
        by_cases hinit : s.m_log_init = false
        · have hstep : TraceBufferLogger_handler s r = s := by
            simp [TraceBufferLogger_handler, hen, hmode, hinit]
          rw [hstep]; exact ⟨h1, h2⟩
        · have hstep : TraceBufferLogger_handler s r = write_log_file (openFile s) r := by
            simp [TraceBufferLogger_handler, hen, hmode, hinit]
          rw [hstep]
          exact write_log_file_inv (openFile s) r rfl (Nat.zero_le _)
      | OPEN =>
        rw [handler_open_eq s r hmode (by simpa using hen)]
        exact write_log_file_inv s r hmode h1
  | setFile f m =>
    show WriterInv (set_log_file s f m)
    unfold set_log_file
    by_cases hmode : s.m_mode = FileMode.OPEN
    · rw [if_pos hmode]; exact ⟨h1, h2⟩
    · rw [if_neg hmode]
      have hc : s.m_mode = FileMode.CLOSED := by
        cases hm : s.m_mode
        · rfl
        · exact absurd hm hmode
      by_cases hname : f.length = 0 ∨ 80 ≤ f.length
      · rw [if_pos hname]; exact ⟨h1, h2⟩
      · rw [if_neg hname]
        refine ⟨?_, fun _ => h2 hc⟩
        simp [h2 hc]
  | conf f =>
    show WriterInv (configure s f)
    unfold configure set_log_file
    by_cases hmode : s.m_mode = FileMode.OPEN
    · rw [if_pos hmode]; exact ⟨h1, h2⟩
    · rw [if_neg hmode]
      have hc : s.m_mode = FileMode.CLOSED := by
        cases hm : s.m_mode
        · rfl
        · exact absurd hm hmode
      by_cases hname : f.length = 0 ∨ 80 ≤ f.length
      · rw [if_pos hname]; exact ⟨h1, h2⟩
      · rw [if_neg hname]
        refine ⟨?_, fun _ => h2 hc⟩
        simp [h2 hc]
  | enable b => exact ⟨h1, h2⟩
  | dumpReq =>
    show WriterInv (DumpTraceDp s).2
    have hsame : (DumpTraceDp s).2 = s := by
      cases hm : s.m_mode <;> simp [DumpTraceDp, hm]
    rw [hsame]
    exact ⟨h1, h2⟩

/-- The invariant holds along any operation sequence. -/
theorem foldl_applyOp_inv (ops : List TraceOp) (s : TraceLoggerState)
    (h : WriterInv s) : WriterInv (ops.foldl applyOp s) := by
  induction ops generalizing s with
  | nil => exact h
  | cons op ops ih => exact ih (applyOp s op) (applyOp_inv s op h)

/-- The encoder output length is the payload length plus the fixed header
width. -/
theorem serializedSize_eq (r : TraceRecord) :
    serializedSize r = r.payload.length + FIXED_HEADER_SIZE := by
  simp [serializedSize, encodeRecord, encodeTime, encodeU32, FIXED_HEADER_SIZE,
    ID_SIZE, TIME_SIZE, TYPE_SIZE]

/-- `C2`: for every trace record whose payload respects the compile-time
bound `PAYLOAD_MAX`, the serialized size equals `payload.length +
FIXED_HEADER_SIZE` (with `FIXED_HEADER_SIZE` the sum of the id, timestamp
and type-tag widths), and never exceeds the compile-time constant
`MAX_RECORD_SIZE = PAYLOAD_MAX + FIXED_HEADER_SIZE`. -/
theorem trace_record_size (r : TraceRecord) (h : r.payload.length ≤ PAYLOAD_MAX) :
    serializedSize r = r.payload.length + FIXED_HEADER_SIZE ∧
      serializedSize r ≤ MAX_RECORD_SIZE := by
  have hs := serializedSize_eq r
  refine ⟨hs, ?_⟩
  rw [hs]
  simp only [MAX_RECORD_SIZE]
  omega

/-- Greedy accounting of a run on an open, enabled writer: the final byte
count is `greedySum` of the serialized sizes. -/
theorem runRecords_open_byteCount (rs : List TraceRecord) :
    ∀ s : TraceLoggerState, s.m_mode = FileMode.OPEN →
      s.m_enable_trace = true →
      (∀ r ∈ rs, r.payload.length ≤ PAYLOAD_MAX) →
      (runRecords s rs).m_byteCount =
        greedySum s.m_maxFileSize s.m_byteCount (rs.map serializedSize) := by
  induction rs with
  | nil => intro s _ _ _; rfl
  | cons r rs ih =>
    intro s hmode hen hval
    have hr : r.payload.length ≤ PAYLOAD_MAX := hval r (by simp)
    have hrs : ∀ x ∈ rs, x.payload.length ≤ PAYLOAD_MAX := fun x hx =>
      hval x (List.mem_cons_of_mem _ hx)
    have hrun : runRecords s (r :: rs) = runRecords (write_log_file s r) rs := by
      simp only [runRecords, List.foldl_cons, handler_open_eq s r hmode hen]
    rw [hrun]
    obtain ⟨hm, hmax, hen2, _⟩ := write_log_file_frame s r
    by_cases hover : s.m_maxFileSize < s.m_byteCount + serializedSize r
    · rw [write_log_file_drop s r hover] at *
      rw [ih s hmode hen hrs]
      simp [greedySum, hover]
    · rw [write_log_file_accept s r hr (by omega)]
      rw [ih _ (by simpa using hmode) (by simpa using hen) hrs]
      simp [greedySum, hover]

/-- A run in which every record fits the budget appends exactly the
concatenated encodings, in call order, and accounts every byte. -/
theorem runRecords_all_accepted (rs : List TraceRecord) :
    ∀ s : TraceLoggerState, s.m_mode = FileMode.OPEN →
      s.m_enable_trace = true →
      (∀ r ∈ rs, r.payload.length ≤ PAYLOAD_MAX) →
      s.m_byteCount + sumSizes rs ≤ s.m_maxFileSize →
      (runRecords s rs).fileContents = s.fileContents ++ encodeAll rs ∧
        (runRecords s rs).m_byteCount = s.m_byteCount + sumSizes rs := by
  induction rs with
  | nil => intro s _ _ _ _; simp [runRecords, encodeAll, sumSizes]
  | cons r rs ih =>
    intro s hmode hen hval hbud
    have hr : r.payload.length ≤ PAYLOAD_MAX := hval r (by simp)
    have hrs : ∀ x ∈ rs, x.payload.length ≤ PAYLOAD_MAX := fun x hx =>
      hval x (List.mem_cons_of_mem _ hx)
    have hsum : sumSizes (r :: rs) = serializedSize r + sumSizes rs := rfl
    have hfit : s.m_byteCount + serializedSize r ≤ s.m_maxFileSize := by
      rw [hsum] at hbud; omega
    have hrun : runRecords s (r :: rs) = runRecords (write_log_file s r) rs := by
      simp only [runRecords, List.foldl_cons, handler_open_eq s r hmode hen]
    rw [hrun, write_log_file_accept s r hr hfit]
    have hbud2 :
        ({ s with
            fileContents := s.fileContents ++ encodeRecord r
            m_byteCount := s.m_byteCount + serializedSize r } :
              TraceLoggerState).m_byteCount + sumSizes rs ≤
          ({ s with
              fileContents := s.fileContents ++ encodeRecord r
              m_byteCount := s.m_byteCount + serializedSize r } :
                TraceLoggerState).m_maxFileSize := by
      show s.m_byteCount + serializedSize r + sumSizes rs ≤ s.m_maxFileSize
      rw [hsum] at hbud
      omega
    obtain ⟨hc, hb⟩ := ih _ (by simpa using hmode) (by simpa using hen) hrs hbud2
    refine ⟨?_, ?_⟩
    · rw [hc]
      simp [encodeAll, List.append_assoc]
    · rw [hb]
      simp [sumSizes]
      omega

/-- Decoding inverts the fixed-width integer encoding. -/
theorem decodeU32_encodeU32 (n : Nat) (h : n < 2 ^ 32) (rest : List Nat) :
    decodeU32 (encodeU32 n ++ rest) = some (n, rest) := by
  simp only [encodeU32, List.cons_append, List.nil_append, decodeU32,
    Option.some.injEq, Prod.mk.injEq]
  exact ⟨by omega, trivial⟩

/-- Decoding inverts the record encoding, given the record's payload
length as context. -/
theorem decodeRecord_encodeRecord (r : TraceRecord) (rest : List Nat)
    (h : validRecord r) :
    decodeRecord r.payload.length (encodeRecord r ++ rest) = some (r, rest) := by
  obtain ⟨hid, hsec, husec, hty, hpl⟩ := h
  obtain ⟨i, ⟨sec, usec⟩, ty, pl⟩ := r
  simp only at hid hsec husec hty hpl
  simp [encodeRecord, encodeTime, List.append_assoc, decodeRecord,
    decodeU32_encodeU32 i hid, decodeU32_encodeU32 sec hsec,
    decodeU32_encodeU32 usec husec, decodeU32_encodeU32 ty hty,
    List.take_left, List.drop_left]

/-- Decoding the concatenated encodings with the payload lengths as
context recovers the record sequence. -/
theorem decodeRecords_encodeAll (rs : List TraceRecord)
    (h : ∀ r ∈ rs, validRecord r) :
    decodeRecords (payloadLens rs) (encodeAll rs) = some rs := by
  induction rs with
  | nil => rfl
  | cons r rs ih =>
    have hr : validRecord r := h r (by simp)
    have hrs : ∀ x ∈ rs, validRecord x := fun x hx =>
      h x (List.mem_cons_of_mem _ hx)
    have ih2 := ih hrs
    simp only [payloadLens] at ih2
    simp [payloadLens, encodeAll, decodeRecords,
      decodeRecord_encodeRecord r (encodeAll rs) hr, ih2]

/-- `C8`: round-trip -- for every sequence of records accepted by an
enabled, freshly configured writer (all records valid and the total
serialized size within the budget, so none is dropped), decoding the
produced file byte stream with `FIXED_HEADER_SIZE` and the per-record
payload lengths reconstructs the original `(id, timestamp, type, payload)`
sequence exactly and in call order -- no reordering, duplication or
batching. -/
theorem trace_roundtrip (s : TraceLoggerState) (rs : List TraceRecord)
    (hmode : s.m_mode = FileMode.CLOSED) (hinit : s.m_log_init = true)
    (hen : s.m_enable_trace = true) (hf : s.fileContents = [])
    (hval : ∀ r ∈ rs, validRecord r)
    (hbud : sumSizes rs ≤ s.m_maxFileSize) :
    decodeRecords (payloadLens rs) ((runRecords s rs).fileContents) = some rs := by
  cases rs with
  | nil =>
    show decodeRecords [] s.fileContents = some []
    rw [hf]
    rfl
  | cons r rs =>
    have hswitch : runRecords s (r :: rs) = runRecords (openFile s) (r :: rs) := by
      simp only [runRecords, List.foldl_cons, handler_closed_eq s r hmode hinit hen]
    have hpay : ∀ x ∈ r :: rs, x.payload.length ≤ PAYLOAD_MAX := fun x hx =>
      (hval x hx).2.2.2.2
    have hall := runRecords_all_accepted (r :: rs) (openFile s) rfl
      (by simpa [openFile] using hen) hpay (by simpa [openFile] using hbud)
    rw [hswitch, hall.1]
    show decodeRecords (payloadLens (r :: rs)) ([] ++ encodeAll (r :: rs)) = _
    rw [List.nil_append]
    exact decodeRecords_encodeAll (r :: rs) hval

/-- Witness for `C8`: a two-record run through the configured writer
decodes back to the two records. -/
theorem trace_roundtrip_witness :
    cfg100.m_mode = FileMode.CLOSED ∧ cfg100.m_log_init = true ∧
      cfg100.m_enable_trace = true ∧ cfg100.fileContents = [] ∧
      (∀ r ∈ [recEx, rec40], validRecord r) ∧
      sumSizes [recEx, rec40] ≤ cfg100.m_maxFileSize ∧
      decodeRecords (payloadLens [recEx, rec40])
          ((runRecords cfg100 [recEx, rec40]).fileContents) = some [recEx, rec40] :=
  ⟨by decide, by decide, by decide, by decide, by decide, by decide,
    trace_roundtrip cfg100 [recEx, rec40] (by decide) (by decide) (by decide)
      (by decide) (by decide) (by decide)⟩

/-- Counterexample to `C1` as stated: with `max_size = 100` and records
of serialized sizes 60, 60 and 30, the run ends with `written = 90` (the
first and third records accepted), while the largest fitting prefix is
just the first record, summing to 60 -- a record beyond that prefix was
accepted, not dropped. -/
theorem written_prefix_cex :
    (runRecords cfg100 [rec60, rec60, rec30]).m_byteCount = 90 ∧
      claimPrefixSum cfg100.m_maxFileSize
          ([rec60, rec60, rec30].map serializedSize) = 60 ∧
      (runRecords cfg100 [rec60, rec60, rec30]).fileContents.length = 90 ∧
      (90 : Nat) ≠ 60 := by decide

/-- `C1` (amended): for a run of `record` calls on an enabled, configured
writer, `written` after the run equals the greedy per-record accounting of
spec §4.2 step 3 -- each record in call order is accepted (its whole
serialized size added) exactly when it still fits the budget, and is
dropped (contributing nothing) otherwise.  The accepted records need not
form a prefix: after a drop, a later smaller record may still be
accepted.  For records of equal serialized size this coincides with the
largest fitting prefix, as in the `max_size = 100`, sizes 40/40/40
scenario, which ends with `written = 80`. -/
theorem written_greedy (s : TraceLoggerState) (rs : List TraceRecord)
    (hmode : s.m_mode = FileMode.CLOSED) (hinit : s.m_log_init = true)
    (hen : s.m_enable_trace = true) (hw : s.m_byteCount = 0)
    (hval : ∀ r ∈ rs, r.payload.length ≤ PAYLOAD_MAX) :
    (runRecords s rs).m_byteCount =
      greedySum s.m_maxFileSize 0 (rs.map serializedSize) := by
  cases rs with
  | nil => exact hw
  | cons r rs =>
    have hswitch : runRecords s (r :: rs) = runRecords (openFile s) (r :: rs) := by
      simp only [runRecords, List.foldl_cons, handler_closed_eq s r hmode hinit hen]
    rw [hswitch]
    rw [runRecords_open_byteCount (r :: rs) (openFile s) rfl (by simpa [openFile] using hen) hval]
    rfl

/-- Witness for `C1` (amended): the spec scenario -- budget 100, three
records of serialized size 40 -- ends with `written = 80`. -/
theorem written_greedy_witness :
    cfg100.m_mode = FileMode.CLOSED ∧ cfg100.m_log_init = true ∧
      cfg100.m_enable_trace = true ∧ cfg100.m_byteCount = 0 ∧
      (∀ r ∈ [rec40, rec40, rec40], r.payload.length ≤ PAYLOAD_MAX) ∧
      (runRecords cfg100 [rec40, rec40, rec40]).m_byteCount =
        greedySum cfg100.m_maxFileSize 0 ([rec40, rec40, rec40].map serializedSize) ∧
      greedySum cfg100.m_maxFileSize 0 ([rec40, rec40, rec40].map serializedSize) = 80 :=
  ⟨by decide, by decide, by decide, by decide, by decide,
    written_greedy cfg100 [rec40, rec40, rec40] (by decide) (by decide) (by decide)
      (by decide) (by decide),
    by decide⟩

/-- Witness for `C2` at the sample record. -/
theorem trace_record_size_witness :
    recEx.payload.length ≤ PAYLOAD_MAX ∧
      (serializedSize recEx = recEx.payload.length + FIXED_HEADER_SIZE ∧
        serializedSize recEx ≤ MAX_RECORD_SIZE) :=
  ⟨by decide, trace_record_size recEx (by decide)⟩

/-- `C3`: after any sequence of writer operations from the initial state
the invariant `written <= max_size` holds, and a record whose size would
push `written` past `max_size` is dropped with the state (in particular
`written`) unchanged. -/
theorem written_le_max (ops : List TraceOp) :
    (ops.foldl applyOp initState).m_byteCount ≤
        (ops.foldl applyOp initState).m_maxFileSize ∧
      ∀ (s : TraceLoggerState) (r : TraceRecord), s.m_mode = FileMode.OPEN →
        s.m_maxFileSize < s.m_byteCount + serializedSize r →
        TraceBufferLogger_handler s r = s := by
  constructor
  · exact (foldl_applyOp_inv ops initState ⟨Nat.zero_le _, fun _ => rfl⟩).1
  · intro s r hmode hover
    by_cases hen : s.m_enable_trace = false
    · simp [TraceBufferLogger_handler, hen]
    · rw [handler_open_eq s r hmode (by simpa using hen)]
      exact write_log_file_drop s r hover

/-- Witness for `C3`: the empty operation sequence satisfies the bound,
and a 60-byte record is dropped without effect by a writer that has
90 of its 100 budget bytes used. -/
theorem written_le_max_witness :
    initState.m_byteCount ≤ initState.m_maxFileSize ∧
      TraceBufferLogger_handler { openEx with m_byteCount := 90 } rec60 =
        { openEx with m_byteCount := 90 } :=
  ⟨(written_le_max []).1,
    (written_le_max []).2 { openEx with m_byteCount := 90 } rec60 (by decide) (by decide)⟩

/-- `C4`: a `record` call made while the writer is disabled changes
nothing at all -- the state (mode, byte count, configuration, file-created
flag and file contents) is returned untouched, for every input record. -/
theorem record_disabled (s : TraceLoggerState) (r : TraceRecord)
    (h : s.m_enable_trace = false) :
    TraceBufferLogger_handler s r = s := by
  simp [TraceBufferLogger_handler, h]

/-- Witness for `C4`: the initial (disabled) state is untouched by a
record call. -/
theorem record_disabled_witness :
    initState.m_enable_trace = false ∧
      TraceBufferLogger_handler initState recEx = initState :=
  ⟨by decide, record_disabled initState recEx (by decide)⟩

/-- `C5`: when no log file has been configured (`m_log_init = false`) and
the writer is still CLOSED, a `record` call is a total no-op: the event is
dropped, the mode stays CLOSED and no file is created. -/
theorem record_unconfigured (s : TraceLoggerState) (r : TraceRecord)
    (hmode : s.m_mode = FileMode.CLOSED) (hinit : s.m_log_init = false) :
    TraceBufferLogger_handler s r = s ∧
      (TraceBufferLogger_handler s r).m_mode = FileMode.CLOSED ∧
      (TraceBufferLogger_handler s r).fileCreated = s.fileCreated := by
  have h : TraceBufferLogger_handler s r = s := by
    by_cases hen : s.m_enable_trace = false
    · simp [TraceBufferLogger_handler, hen]
    · simp [TraceBufferLogger_handler, hen, hmode, hinit]
  exact ⟨h, by rw [h, hmode], by rw [h]⟩

/-- Witness for `C5`: an enabled but never-configured writer drops the
first record, stays CLOSED and creates no file. -/
theorem record_unconfigured_witness :
    (EnableTrace initState true).m_mode = FileMode.CLOSED ∧
      (EnableTrace initState true).m_log_init = false ∧
      (TraceBufferLogger_handler (EnableTrace initState true) recEx =
          EnableTrace initState true ∧
        (TraceBufferLogger_handler (EnableTrace initState true) recEx).m_mode =
          FileMode.CLOSED ∧
        (TraceBufferLogger_handler (EnableTrace initState true) recEx).fileCreated =
          (EnableTrace initState true).fileCreated) :=
  ⟨by decide, by decide,
    record_unconfigured (EnableTrace initState true) recEx (by decide) (by decide)⟩

/-- `C6`: once the writer is OPEN, every configuration call
(`set_log_file` with any name and budget, and `configure`) is a no-op:
the configured name, budget, byte count, mode and file are all exactly as
before. -/
theorem configure_after_open (s : TraceLoggerState) (f : String) (m : Nat)
    (h : s.m_mode = FileMode.OPEN) :
    set_log_file s f m = s ∧ configure s f = s := by
  constructor
  · simp [set_log_file, h]
  · simp [configure, set_log_file, h]

/-- Witness for `C6` at the sample open state. -/
theorem configure_after_open_witness :
    openEx.m_mode = FileMode.OPEN ∧
      (set_log_file openEx "other.bin" 9999 = openEx ∧
        configure openEx "other.bin" = openEx) :=
  ⟨by decide, configure_after_open openEx "other.bin" 9999 (by decide)⟩

/-- `C7`: `dump` is side-effect-free (the state after the call is the
state before it, so mode, enable flag and byte count are unchanged) and
idempotent (a second dump with no intervening record returns
byte-identical output), and a dump of a CLOSED writer returns the empty
byte sequence. -/
theorem dump_idempotent (s : TraceLoggerState) :
    (DumpTraceDp s).2 = s ∧
      (DumpTraceDp (DumpTraceDp s).2).1 = (DumpTraceDp s).1 ∧
      (s.m_mode = FileMode.CLOSED → (DumpTraceDp s).1 = []) := by
  have hstate : (DumpTraceDp s).2 = s := by
    cases hm : s.m_mode <;> simp [DumpTraceDp, hm]
  refine ⟨hstate, by rw [hstate], ?_⟩
  intro hm
  simp [DumpTraceDp, hm]

/-- Witness for `C7`: dumping the initial (CLOSED) writer is empty,
harmless and idempotent. -/
theorem dump_idempotent_witness :
    (DumpTraceDp initState).2 = initState ∧
      (DumpTraceDp (DumpTraceDp initState).2).1 = (DumpTraceDp initState).1 ∧
      (DumpTraceDp initState).1 = [] :=
  ⟨(dump_idempotent initState).1, (dump_idempotent initState).2.1,
    (dump_idempotent initState).2.2 (by decide)⟩

/-- `C9`: calling `set_log_file` without an explicit max-size argument
uses the header's default argument value, so an accepted configuration
call (writer not yet OPEN, valid name) sets the byte budget to exactly
2048. -/
theorem set_log_file_default_size (s : TraceLoggerState) (f : String)
    (hmode : s.m_mode = FileMode.CLOSED) (hpos : 0 < f.length)
    (hlen : f.length < 80) :
    set_log_file_default s f = set_log_file s f 2048 ∧
      (set_log_file_default s f).m_maxFileSize = 2048 := by
  refine ⟨rfl, ?_⟩
  have hcond : ¬(f.length = 0 ∨ 80 ≤ f.length) := by omega
  simp [set_log_file_default, set_log_file, hmode, hcond]

/-- Witness for `C9`: configuring a fresh writer with a nine-character
name and no explicit size yields a 2048-byte budget. -/
theorem set_log_file_default_size_witness :
    initState.m_mode = FileMode.CLOSED ∧ 0 < ("trace.bin" : String).length ∧
      ("trace.bin" : String).length < 80 ∧
      (set_log_file_default initState "trace.bin" =
          set_log_file initState "trace.bin" 2048 ∧
        (set_log_file_default initState "trace.bin").m_maxFileSize = 2048) :=
  ⟨by decide, by decide, by decide,
    set_log_file_default_size initState "trace.bin" (by decide) (by decide) (by decide)⟩

/-- `C10`: a file name of 80 characters or more is rejected by
`set_log_file` -- the whole state, in particular the previously configured
name, is retained -- and this 80-character acceptance bound is strictly
tighter than the platform name-length limit `FILE_NAME_MAX` declared in
the same header. -/
theorem set_log_file_name_too_long (s : TraceLoggerState) (f : String) (m : Nat)
    (h : 80 ≤ f.length) :
    set_log_file s f m = s ∧ 80 < FILE_NAME_MAX := by
  refine ⟨?_, by decide⟩
  by_cases hm : s.m_mode = FileMode.OPEN
  · simp [set_log_file, hm]
  · simp [set_log_file, hm, h]

/-- Witness for `C10`: an 80-character name is rejected and the prior
configuration kept. -/
theorem set_log_file_name_too_long_witness :
    80 ≤ ("aaaaaaaaaabbbbbbbbbbccccccccccddddddddddeeeeeeeeeeffffffffffgggggggggghhhhhhhhhh" : String).length ∧
      (set_log_file openEx
          "aaaaaaaaaabbbbbbbbbbccccccccccddddddddddeeeeeeeeeeffffffffffgggggggggghhhhhhhhhh" 7 =
          openEx ∧ 80 < FILE_NAME_MAX) :=
  ⟨by decide,
    set_log_file_name_too_long openEx
      "aaaaaaaaaabbbbbbbbbbccccccccccddddddddddeeeeeeeeeeffffffffffgggggggggghhhhhhhhhh" 7
      (by decide)⟩

end Svc
